import Mathlib

/-!
Verification development for the CrateHQ DM agent (`dm-agent/dm_agent.py`).

The agent's polling/scheduling core is embedded shallowly:

* Pure data (messages, threads, pending replies, payloads) become structures.
* The `last_seen.json` watermark dict becomes an association list over strings.
* External I/O (`requests`, `instagrapi`) becomes oracle functions supplied as
  parameters: an HTTP attempt oracle for `_request_with_retry`, a forwarding
  outcome oracle for `forward_message`, and a reply-send oracle for
  `cl.direct_answer` (`none` models a raised exception).
* `random.uniform(0.7, 1.3)` becomes an explicit jitter argument; all float
  arithmetic is idealised over `ℚ`.
* One iteration of `main`'s `while True` loop becomes `schedStep`, a pure
  function from an environment (current hour, lock freshness, the outcome of
  the cycle including any raised exception class, the re-login outcome) to a
  record of the observable actions the iteration performs (heartbeats posted,
  sleep issued, state saved, exit code).
-/

namespace DMAgent

/-- Media attachment of a direct message.  `none` in a field models both an
absent attribute and a falsy (empty) URL, matching the truthiness tests in
`poll_cycle`. -/
structure Media where
  thumbnail_url : Option String
  video_url : Option String
deriving DecidableEq, Repr

/-- A direct message as fetched from the remote client (fields used by
`poll_cycle`).  `id` and `user_id` are the `str(...)`-rendered identifiers. -/
structure Msg where
  id : String
  user_id : String
  text : Option String
  timestamp : Option String
  item_type : Option String
  media : Option Media
deriving DecidableEq, Repr

/-- A thread participant (fields used by sender resolution). -/
structure IgUser where
  pk : String
  username : Option String
  full_name : Option String
deriving DecidableEq, Repr

/-- An unread thread as returned by `cl.direct_threads`. -/
structure IgThread where
  id : String
  users : List IgUser
deriving DecidableEq, Repr

/-- A pending outbound reply item from `GET /api/dm-agent/pending-replies`. -/
structure Pending where
  id : String
  thread_id : String
  message_text : String
deriving DecidableEq, Repr

/-- The forwarding payload posted to `POST /api/webhooks/instagram-dm`. -/
structure Payload where
  ig_account_id : String
  thread_id : String
  sender_username : String
  sender_full_name : String
  message_text : String
  message_id : String
  timestamp : String
  item_type : String
  media_url : Option String
deriving DecidableEq, Repr

/-- A heartbeat posted to `POST /api/dm-agent/heartbeat`. -/
structure HB where
  status : String
  messages_found : Nat
  messages_sent : Nat
  error_detail : Option String
deriving DecidableEq, Repr

/-- An Android device profile from the static `DEVICE_PROFILES` catalog. -/
structure DeviceProfile where
  manufacturer : String
  model : String
  android_version : Nat
  android_release : String
  app_version : String
  dpi : String
  resolution : String
deriving DecidableEq, Repr, Inhabited

/-- The static ten-entry device catalog of `dm_agent.py`. -/
def DEVICE_PROFILES : List DeviceProfile :=
  [ ⟨"Samsung", "SM-G998B", 33, "13", "302.1.0.36.111", "640dpi", "1440x3200"⟩,
    ⟨"Samsung", "SM-S908B", 34, "14", "305.0.0.34.110", "600dpi", "1440x3088"⟩,
    ⟨"Google", "Pixel 7 Pro", 34, "14", "305.0.0.34.110", "560dpi", "1440x3120"⟩,
    ⟨"Google", "Pixel 8", 34, "14", "306.0.0.35.109", "420dpi", "1080x2400"⟩,
    ⟨"OnePlus", "CPH2449", 33, "13", "302.1.0.36.111", "450dpi", "1240x2772"⟩,
    ⟨"Xiaomi", "2210132G", 33, "13", "302.1.0.36.111", "440dpi", "1220x2712"⟩,
    ⟨"Samsung", "SM-A546B", 33, "13", "302.1.0.36.111", "400dpi", "1080x2340"⟩,
    ⟨"Samsung", "SM-G991B", 33, "13", "305.0.0.34.110", "560dpi", "1080x2400"⟩,
    ⟨"Google", "Pixel 6a", 34, "14", "306.0.0.35.109", "420dpi", "1080x2400"⟩,
    ⟨"OnePlus", "NE2215", 34, "14", "305.0.0.34.110", "525dpi", "1440x3216"⟩ ]

/-- `pick_device_profile`: index the catalog by the account-id hash modulo the
catalog size.  The SHA-256 hash value `int(hashlib.sha256(id).hexdigest(), 16)`
is taken as an input (it is a pure function of the account id computed by an
external library). -/
def pick_device_profile (accountHash : Nat) : DeviceProfile :=
  DEVICE_PROFILES.getD (accountHash % DEVICE_PROFILES.length) default

/-- Configuration keys used by the polling/scheduling core.  `ig_account_hash`
stands for the SHA-256 value of `ig_account_id` used by device selection. -/
structure Config where
  ig_account_id : String
  ig_account_hash : Nat
  active_start_hour : Nat
  active_end_hour : Nat
  winddown_start_hour : Nat
  poll_interval_active_sec : Nat
  poll_interval_winddown_sec : Nat
deriving DecidableEq, Repr

/-- Lookup in the `last_seen` mapping (`dict.get`: `none` when absent). -/
def alist_get : List (String × String) → String → Option String
  | [], _ => none
  | (k, v) :: rest, key => if k = key then some v else alist_get rest key

/-- Update/insert in the `last_seen` mapping (`dict.__setitem__`). -/
def alist_set : List (String × String) → String → String → List (String × String)
  | [], key, val => [(key, val)]
  | (k, v) :: rest, key, val =>
    if k = key then (key, val) :: rest else (k, v) :: alist_set rest key val

/-- The watermark walk of `poll_cycle`: walk the fetched list (newest first),
collecting every message until one whose id equals the stored watermark is
found (`break`) or the list is exhausted.  A watermark of `none` (thread not in
`last_seen`) matches no id, so the whole window is collected. -/
def collect_new (seenId : Option String) : List Msg → List Msg
  | [] => []
  | m :: rest => if seenId = some m.id then [] else m :: collect_new seenId rest

/-- Sender resolution: first participant whose `pk` equals the message's
`user_id`; fields default to the empty string (`u.username or ""`). -/
def resolve_sender (users : List IgUser) (userId : String) : String × String :=
  match users.find? (fun u => u.pk == userId) with
  | some u => (u.username.getD "", u.full_name.getD "")
  | none => ("", "")

/-- Media URL extraction: prefer a (truthy) thumbnail URL, fall back to a
video URL, else no URL. -/
def media_url_of : Option Media → Option String
  | none => none
  | some m =>
    match m.thumbnail_url with
    | some t => some t
    | none => m.video_url

/-- Build the forwarding payload for one message (`poll_cycle`, inner loop).
`nowIso` models `datetime.utcnow().isoformat()`, the timestamp fallback. -/
def build_payload (cfg : Config) (nowIso : String) (threadId : String)
    (users : List IgUser) (msg : Msg) : Payload :=
  let s := resolve_sender users msg.user_id
  { ig_account_id := cfg.ig_account_id
    thread_id := threadId
    sender_username := s.1
    sender_full_name := s.2
    message_text := msg.text.getD ""
    message_id := msg.id
    timestamp := msg.timestamp.getD nowIso
    item_type := msg.item_type.getD "text"
    media_url := media_url_of msg.media }

/-- `str(result.id) if result else ""` for a reply-send result. -/
def ig_id_of : Option String → String
  | some s => s
  | none => ""

/-- The observable outcome of one `poll_cycle` run: the two counters it
returns, the updated `last_seen` map, the sequence of forwarded payloads (each
paired with the backend's response, which `forward_message` discards), and the
sequence of posted delivery confirmations. -/
structure CycleResult where
  found : Nat
  sent : Nat
  lastSeen : List (String × String)
  forwards : List (Payload × Option Nat)
  confirms : List (String × String)
deriving DecidableEq, Repr

/-- The per-thread body of `poll_cycle`'s inbound loop: diff the fetched
window (`msgs`, newest first) against the stored watermark, forward the new
set oldest-first, and advance the watermark to the newest fetched id
(`messages[0].id`) whenever the new set is non-empty.  `fwd` is the HTTP
outcome of `forward_message`'s POST; its value is never consulted. -/
def process_thread (cfg : Config) (nowIso : String) (fwd : Payload → Option Nat)
    (st : CycleResult) (t : IgThread) (msgs : List Msg) : CycleResult :=
  match msgs with
  | [] => st
  | m0 :: _ =>
    let seenId := alist_get st.lastSeen t.id
    let newMsgs := collect_new seenId msgs
    if newMsgs.isEmpty then st
    else
      let ordered := newMsgs.reverse
      let payloads := ordered.map (fun m => build_payload cfg nowIso t.id t.users m)
      { found := st.found + ordered.length
        sent := st.sent
        lastSeen := alist_set st.lastSeen t.id m0.id
        forwards := st.forwards ++ payloads.map (fun p => (p, fwd p))
        confirms := st.confirms }

/-- The per-item body of `poll_cycle`'s outbound loop: `none` from the send
oracle models an exception from `cl.direct_answer` (or a malformed item),
whose handler logs and skips; success posts a confirmation and increments the
sent counter.  `sendReply` models `cl.direct_answer`: `some rid` is success
with `rid` the truthy `result.id` (or `none` for a falsy result). -/
def process_reply (sendReply : Pending → Option (Option String))
    (st : CycleResult) (item : Pending) : CycleResult :=
  match sendReply item with
  | some rid =>
    { st with sent := st.sent + 1,
              confirms := st.confirms ++ [(item.id, ig_id_of rid)] }
  | none => st

/-- One full `poll_cycle`: inbound diffing over the unread threads (each
paired with its fetched 20-message window), then the outbound pending-reply
loop. -/
def poll_cycle (cfg : Config) (nowIso : String) (fwd : Payload → Option Nat)
    (sendReply : Pending → Option (Option String)) (pending : List Pending)
    (inbox : List (IgThread × List Msg)) (lastSeen : List (String × String)) :
    CycleResult :=
  let st0 : CycleResult := ⟨0, 0, lastSeen, [], []⟩
  let st1 := inbox.foldl (fun st p => process_thread cfg nowIso fwd st p.1 p.2) st0
  pending.foldl (process_reply sendReply) st1

/-- The attempt loop of `_request_with_retry`, with explicit fuel (the source
uses `for attempt in range(3)`).  `oracle i` is the outcome of the `i`-th
attempt (0-indexed): `some r` a successful response, `none` any exception
(network error or `raise_for_status`).  Returns the result together with the
list of `time.sleep` durations performed, in order: after the failed attempt
with 0-indexed number `attempt`, the loop sleeps `2 ^ (attempt + 1)` seconds
even when it was the last attempt. -/
def retry_go {α : Type} (oracle : Nat → Option α) : Nat → Nat → Option α × List Nat
  | 0, _ => (none, [])
  | fuel + 1, attempt =>
    match oracle attempt with
    | some r => (some r, [])
    | none =>
      let rest := retry_go oracle fuel (attempt + 1)
      (rest.1, 2 ^ (attempt + 1) :: rest.2)

/-- `_request_with_retry`: up to 3 attempts starting at attempt 0. -/
def request_with_retry {α : Type} (oracle : Nat → Option α) : Option α × List Nat :=
  retry_go oracle 3 0

/-- `calculate_sleep`: multiply the base interval by the jitter factor drawn
from `random.uniform(0.7, 1.3)` (here an explicit argument), with a hard floor
of 120 seconds.  Float arithmetic is idealised over `ℚ`. -/
def calculate_sleep (base_interval : ℚ) (jitter : ℚ) : ℚ :=
  max (base_interval * jitter) 120

/-- `is_flowchat_active`: the lock file exists (and is statable) and
`datetime.now() - mtime < timedelta(minutes=5)`.  `ageSec` is the signed age
`now - mtime` in seconds. -/
def is_flowchat_active (lockThere : Bool) (ageSec : ℚ) : Bool :=
  lockThere && decide (ageSec < 300)

/-- `seconds_until_hour`: seconds from now until the next occurrence of
`target_hour:00`.  `secOfDay` is the current wall-clock second-of-day in the
configured timezone (a rational, covering sub-second precision); the model
treats a day as a fixed 86400 seconds, matching the source's wall-clock
`timedelta` arithmetic on a frozen tzinfo. -/
def seconds_until_hour (secOfDay : ℚ) (targetHour : Nat) : ℚ :=
  let target : ℚ := (targetHour : ℚ) * 3600
  if target ≤ secOfDay then target + 86400 - secOfDay else target - secOfDay

/-- The scheduler's active-window test: `hour < active_start or
hour >= active_end`. -/
def outside_active (cfg : Config) (hour : Nat) : Bool :=
  decide (hour < cfg.active_start_hour) || decide (cfg.active_end_hour ≤ hour)

/-- Base poll interval selection: the wind-down interval once
`hour >= winddown_start`, else the active interval. -/
def base_interval (cfg : Config) (hour : Nat) : Nat :=
  if cfg.winddown_start_hour ≤ hour then cfg.poll_interval_winddown_sec
  else cfg.poll_interval_active_sec

/-- Classification of an exception escaping `poll_cycle` (or the iteration
body before it): the three `except` arms of `main`'s loop.
`challengeRequired` covers both `ChallengeRequired` and
`SelectContactPointRecoveryForm`. -/
inductive CycleExc
  | loginRequired
  | challengeRequired (detail : String)
  | otherError (detail : String)
deriving DecidableEq, Repr

/-- Outcome of the single re-login attempt made in the `LoginRequired`
handler: success, a manual-verification challenge, or any other failure. -/
inductive ReloginOutcome
  | success
  | challenge (detail : String)
  | failed (detail : String)
deriving DecidableEq, Repr

/-- The environment one scheduler iteration observes: clock readings, the
coordination lock's state, the jitter draw, the remote inbox and pending
queue, the I/O oracles, whether the iteration body raises (`exc`), the
re-login outcome were it attempted, and whether the best-effort heartbeat in
the catch-all handler itself raises (that raise is swallowed by
`except Exception: pass`, so no result field depends on it). -/
structure Env where
  hour : Nat
  secOfDay : ℚ
  lockThere : Bool
  lockAgeSec : ℚ
  jitter : ℚ
  nowIso : String
  inbox : List (IgThread × List Msg)
  pending : List Pending
  fwd : Payload → Option Nat
  sendReply : Pending → Option (Option String)
  exc : Option CycleExc
  relogin : ReloginOutcome
  hbRaisesInErrorPath : Bool

/-- The observable actions of one scheduler iteration: heartbeats posted (in
order), the sleep issued (`none` when the iteration loops immediately), the
`last_seen` map persisted by `save_last_seen` (if reached), the `poll_cycle`
result (if one ran), how many re-login attempts were made, whether
`dump_settings` saved a fresh session, which device profile a client rebuild
applied, and the process exit code (`none` = the loop continues). -/
structure StepResult where
  heartbeats : List HB
  sleepSec : Option ℚ
  saved : Option (List (String × String))
  cycle : Option CycleResult
  reloginAttempts : Nat
  sessionSaved : Bool
  deviceApplied : Option DeviceProfile
  exitCode : Option Nat
deriving DecidableEq, Repr

/-- One iteration of `main`'s `while True` loop over the environment `env`
and the in-memory `last_seen` map. -/
def schedStep (cfg : Config) (env : Env) (lastSeen : List (String × String)) :
    StepResult :=
  if outside_active cfg env.hour then
    { heartbeats := [⟨"ok", 0, 0, none⟩]
      sleepSec := some (seconds_until_hour env.secOfDay cfg.active_start_hour)
      saved := none
      cycle := none
      reloginAttempts := 0
      sessionSaved := false
      deviceApplied := none
      exitCode := none }
  else if is_flowchat_active env.lockThere env.lockAgeSec then
    { heartbeats := []
      sleepSec := some 30
      saved := none
      cycle := none
      reloginAttempts := 0
      sessionSaved := false
      deviceApplied := none
      exitCode := none }
  else
    match env.exc with
    | none =>
      let res := poll_cycle cfg env.nowIso env.fwd env.sendReply env.pending
        env.inbox lastSeen
      { heartbeats := [⟨"ok", res.found, res.sent, none⟩]
        sleepSec := some (calculate_sleep (base_interval cfg env.hour) env.jitter)
        saved := some res.lastSeen
        cycle := some res
        reloginAttempts := 0
        sessionSaved := false
        deviceApplied := none
        exitCode := none }
    | some CycleExc.loginRequired =>
      match env.relogin with
      | ReloginOutcome.success =>
        { heartbeats := []
          sleepSec := none
          saved := none
          cycle := none
          reloginAttempts := 1
          sessionSaved := true
          deviceApplied := some (pick_device_profile cfg.ig_account_hash)
          exitCode := none }
      | ReloginOutcome.challenge d =>
        { heartbeats := [⟨"challenge_required", 0, 0, some d⟩]
          sleepSec := none
          saved := none
          cycle := none
          reloginAttempts := 1
          sessionSaved := false
          deviceApplied := some (pick_device_profile cfg.ig_account_hash)
          exitCode := some 1 }
      | ReloginOutcome.failed d =>
        { heartbeats := [⟨"session_expired", 0, 0, some d⟩]
          sleepSec := none
          saved := none
          cycle := none
          reloginAttempts := 1
          sessionSaved := false
          deviceApplied := some (pick_device_profile cfg.ig_account_hash)
          exitCode := some 1 }
    | some (CycleExc.challengeRequired d) =>
      { heartbeats := [⟨"challenge_required", 0, 0, some d⟩]
        sleepSec := none
        saved := none
        cycle := none
        reloginAttempts := 0
        sessionSaved := false
        deviceApplied := none
        exitCode := some 1 }
    | some (CycleExc.otherError d) =>
      { heartbeats := [⟨"error", 0, 0, some d⟩]
        sleepSec := some (calculate_sleep (cfg.poll_interval_active_sec : ℚ) env.jitter)
        saved := none
        cycle := none
        reloginAttempts := 0
        sessionSaved := false
        deviceApplied := none
        exitCode := none }

/-! ### Helper lemmas -/

lemma alist_get_set (m : List (String × String)) (k v k' : String) :
    alist_get (alist_set m k v) k' = if k = k' then some v else alist_get m k' := by
  induction m with
  | nil => simp [alist_set, alist_get]
  | cons hd tl ih =>
    obtain ⟨a, b⟩ := hd
    by_cases hak : a = k
    · subst hak
      simp only [alist_set, if_pos rfl]
      by_cases hk : a = k'
      · simp [alist_get, hk]
      · simp [alist_get, hk]
    · simp only [alist_set, if_neg hak]
      by_cases hk : a = k'
      · subst hk
        have : ¬ k = a := fun h => hak h.symm
        simp [alist_get, this]
      · simp [alist_get, hk, ih]

lemma collect_new_none (msgs : List Msg) : collect_new none msgs = msgs := by
  induction msgs with
  | nil => rfl
  | cons m rest ih => simp [collect_new, ih]

lemma collect_new_not_mem (w : String) (msgs : List Msg)
    (h : w ∉ msgs.map Msg.id) : collect_new (some w) msgs = msgs := by
  induction msgs with
  | nil => rfl
  | cons m rest ih =>
    simp only [List.map_cons, List.mem_cons, not_or] at h
    simp [collect_new, Option.some.injEq, h.1, ih h.2]

lemma collect_new_split (l1 : List Msg) (m : Msg) (l2 : List Msg) (w : String)
    (hw : m.id = w) (hnot : w ∉ l1.map Msg.id) :
    collect_new (some w) (l1 ++ m :: l2) = l1 := by
  induction l1 with
  | nil => simp [collect_new, hw]
  | cons a rest ih =>
    simp only [List.map_cons, List.mem_cons, not_or] at hnot
    simp [collect_new, Option.some.injEq, hnot.1, ih hnot.2]

/-! ### Claim theorems -/

/-- C3: the resilient backend caller makes up to 3 attempts and never a 4th
(the result depends only on the first three attempt outcomes); after failed
attempt `k` (1-indexed) it sleeps `2 ^ k` seconds, so three straight failures
produce sleeps `[2, 4, 8]` and a failure report (`none`), while success at
1-indexed attempt `k + 1` produces the sleeps `2, …, 2 ^ k` of the preceding
failures. -/
theorem c3_backoff_schedule {α : Type} :
    (∀ oracle : Nat → Option α, (∀ i, i < 3 → oracle i = none) →
      request_with_retry oracle = (none, [2, 4, 8]))
    ∧ (∀ (oracle : Nat → Option α) (k : Nat) (r : α), k < 3 →
        (∀ i, i < k → oracle i = none) → oracle k = some r →
        request_with_retry oracle =
          (some r, (List.range k).map (fun i => 2 ^ (i + 1))))
    ∧ (∀ o1 o2 : Nat → Option α, (∀ i, i < 3 → o1 i = o2 i) →
        request_with_retry o1 = request_with_retry o2) := by
  refine ⟨?_, ?_, ?_⟩
  · intro oracle h
    have h0 := h 0 (by norm_num)
    have h1 := h 1 (by norm_num)
    have h2 := h 2 (by norm_num)
    simp [request_with_retry, retry_go, h0, h1, h2]
  · intro oracle k r hk hfail hsucc
    interval_cases k
    · simp [request_with_retry, retry_go, hsucc]
    · have h0 := hfail 0 (by norm_num)
      simp [request_with_retry, retry_go, h0, hsucc, List.range_succ]
    · have h0 := hfail 0 (by norm_num)
      have h1 := hfail 1 (by norm_num)
      simp [request_with_retry, retry_go, h0, h1, hsucc, List.range_succ]
  · intro o1 o2 h
    have e0 := h 0 (by norm_num)
    have e1 := h 1 (by norm_num)
    have e2 := h 2 (by norm_num)
    cases c0 : o2 0 <;> cases c1 : o2 1 <;> cases c2 : o2 2 <;>
      simp [request_with_retry, retry_go, e0, e1, e2, c0, c1, c2]

/-- Witness for C3: three simulated failures yield no response and sleeps of
exactly 2, 4, 8. -/
theorem c3_backoff_schedule_witness :
    request_with_retry (fun _ => (none : Option Nat)) = (none, [2, 4, 8]) :=
  (@c3_backoff_schedule Nat).1 (fun _ => none) (fun _ _ => rfl)

/-- C7: for any base interval `I` and jitter factor in `[0.7, 1.3]`,
`calculate_sleep` returns a value in `[max(0.7·I, 120), max(1.3·I, 120)]`; for
`I ≤ 92.3` the result is exactly the 120-second floor, and in particular
`calculate_sleep 60` is always at least 120. -/
theorem c7_jitter_bounds (I j : ℚ) (h1 : 0.7 ≤ j) (h2 : j ≤ 1.3) :
    (max (0.7 * I) 120 ≤ calculate_sleep I j
      ∧ calculate_sleep I j ≤ max (1.3 * I) 120)
    ∧ (I ≤ 92.3 → calculate_sleep I j = 120)
    ∧ 120 ≤ calculate_sleep 60 j := by
  unfold calculate_sleep
  rcases le_or_lt 0 I with hI | hI
  · refine ⟨⟨max_le_max (by nlinarith) le_rfl, max_le_max (by nlinarith) le_rfl⟩,
      ?_, le_max_right _ _⟩
    intro hle
    exact max_eq_right (by nlinarith)
  · have l0 : I * j < 0 := mul_neg_of_neg_of_pos hI (by linarith)
    refine ⟨⟨?_, ?_⟩, ?_, le_max_right _ _⟩
    · rw [max_eq_right (by nlinarith : (0.7 : ℚ) * I ≤ 120)]
      exact le_max_right _ _
    · rw [max_eq_right (by linarith : I * j ≤ 120)]
      exact le_max_right _ _
    · intro _
      exact max_eq_right (by linarith)

/-- Witness for C7: the floor is hit at `I = 60` with jitter factor 1. -/
theorem c7_jitter_bounds_witness : calculate_sleep 60 1 = 120 :=
  (c7_jitter_bounds 60 1 (by norm_num) (by norm_num)).2.1 (by norm_num)

lemma schedStep_hb_irrel (cfg : Config) (env : Env)
    (ls : List (String × String)) (b : Bool) :
    schedStep cfg { env with hbRaisesInErrorPath := b } ls = schedStep cfg env ls := by
  cases env
  rfl

/-- C4: a mid-cycle session-invalid signal triggers exactly one re-login
attempt on a rebuilt client carrying the account's deterministic device
profile; success saves the session and continues the loop, while a failure
(challenge or otherwise) posts the corresponding heartbeat
(`challenge_required` or `session_expired`) and exits with code 1. -/
theorem c4_session_recovery (cfg : Config) (env : Env)
    (ls : List (String × String))
    (hin : outside_active cfg env.hour = false)
    (hlock : is_flowchat_active env.lockThere env.lockAgeSec = false)
    (hexc : env.exc = some CycleExc.loginRequired) :
    (schedStep cfg env ls).reloginAttempts = 1
    ∧ (schedStep cfg env ls).deviceApplied
        = some (pick_device_profile cfg.ig_account_hash)
    ∧ (env.relogin = ReloginOutcome.success →
        (schedStep cfg env ls).exitCode = none
        ∧ (schedStep cfg env ls).sessionSaved = true
        ∧ (schedStep cfg env ls).heartbeats = [])
    ∧ (∀ d, env.relogin = ReloginOutcome.challenge d →
        (schedStep cfg env ls).exitCode = some 1
        ∧ (schedStep cfg env ls).heartbeats = [⟨"challenge_required", 0, 0, some d⟩]
        ∧ (schedStep cfg env ls).sessionSaved = false)
    ∧ (∀ d, env.relogin = ReloginOutcome.failed d →
        (schedStep cfg env ls).exitCode = some 1
        ∧ (schedStep cfg env ls).heartbeats = [⟨"session_expired", 0, 0, some d⟩]
        ∧ (schedStep cfg env ls).sessionSaved = false) := by
  cases hr : env.relogin <;> simp [schedStep, hin, hlock, hexc, hr]

/-- Witness for C4: a concrete in-window environment raising the
session-invalid signal with a successful re-login makes exactly one attempt. -/
theorem c4_session_recovery_witness :
    (schedStep ⟨"acct1", 0, 9, 21, 19, 600, 1200⟩
      ⟨10, 36000, false, 0, 1, "now", [], [], fun _ => none, fun _ => none,
        some CycleExc.loginRequired, ReloginOutcome.success, false⟩
      []).reloginAttempts = 1 :=
  (c4_session_recovery ⟨"acct1", 0, 9, 21, 19, 600, 1200⟩
    ⟨10, 36000, false, 0, 1, "now", [], [], fun _ => none, fun _ => none,
      some CycleExc.loginRequired, ReloginOutcome.success, false⟩
    [] rfl rfl rfl).1

/-- C5: an unexpected, unclassified exception in a cycle never terminates the
process: the iteration posts a best-effort heartbeat with status `error` and
the failure detail, sleeps the jittered active interval, and continues; a
failure while posting that heartbeat is swallowed (the iteration's result does
not depend on it). -/
theorem c5_catchall_error (cfg : Config) (env : Env)
    (ls : List (String × String)) (d : String)
    (hin : outside_active cfg env.hour = false)
    (hlock : is_flowchat_active env.lockThere env.lockAgeSec = false)
    (hexc : env.exc = some (CycleExc.otherError d)) :
    (schedStep cfg env ls).exitCode = none
    ∧ (schedStep cfg env ls).heartbeats = [⟨"error", 0, 0, some d⟩]
    ∧ (schedStep cfg env ls).sleepSec
        = some (calculate_sleep (cfg.poll_interval_active_sec : ℚ) env.jitter)
    ∧ (∀ b : Bool,
        schedStep cfg { env with hbRaisesInErrorPath := b } ls
          = schedStep cfg env ls) := by
  refine ⟨?_, ?_, ?_, fun b => schedStep_hb_irrel cfg env ls b⟩ <;>
    simp [schedStep, hin, hlock, hexc]

/-- Witness for C5: a concrete in-window environment with an unclassified
failure continues the loop (no exit code). -/
theorem c5_catchall_error_witness :
    (schedStep ⟨"acct1", 0, 9, 21, 19, 600, 1200⟩
      ⟨10, 36000, false, 0, 1, "now", [], [], fun _ => none, fun _ => none,
        some (CycleExc.otherError "boom"), ReloginOutcome.success, false⟩
      []).exitCode = none :=
  (c5_catchall_error ⟨"acct1", 0, 9, 21, 19, 600, 1200⟩
    ⟨10, 36000, false, 0, 1, "now", [], [], fun _ => none, fun _ => none,
      some (CycleExc.otherError "boom"), ReloginOutcome.success, false⟩
    [] "boom" rfl rfl rfl).1

/-- C6: with `active_start = 9` and `active_end = 21` the current hour is
outside the active window exactly when `hour < 9` or `hour ≥ 21` (hours 8 and
21 are outside, 9 through 20 inside); an outside iteration posts a single
heartbeat with status `ok` and zero counts and sleeps exactly the time to the
next occurrence of 09:00 — a positive duration of at most one day after which
the wall clock reads exactly `9 * 3600` seconds past a midnight. -/
theorem c6_active_window (cfg : Config) (env : Env)
    (ls : List (String × String))
    (hs : cfg.active_start_hour = 9) (he : cfg.active_end_hour = 21)
    (hlo : 0 ≤ env.secOfDay) (hhi : env.secOfDay < 86400) :
    (outside_active cfg env.hour = true ↔ (env.hour < 9 ∨ 21 ≤ env.hour))
    ∧ outside_active cfg 8 = true
    ∧ outside_active cfg 21 = true
    ∧ (∀ h, 9 ≤ h → h ≤ 20 → outside_active cfg h = false)
    ∧ (outside_active cfg env.hour = true →
        schedStep cfg env ls =
          { heartbeats := [⟨"ok", 0, 0, none⟩],
            sleepSec := some (seconds_until_hour env.secOfDay 9),
            saved := none, cycle := none, reloginAttempts := 0,
            sessionSaved := false, deviceApplied := none, exitCode := none })
    ∧ 0 < seconds_until_hour env.secOfDay 9
    ∧ seconds_until_hour env.secOfDay 9 ≤ 86400
    ∧ (env.secOfDay + seconds_until_hour env.secOfDay 9 = 9 * 3600
       ∨ env.secOfDay + seconds_until_hour env.secOfDay 9 = 9 * 3600 + 86400) := by
  have hiff : outside_active cfg env.hour = true ↔ (env.hour < 9 ∨ 21 ≤ env.hour) := by
    simp [outside_active, hs, he]
  have htgt : ((9 : Nat) : ℚ) * 3600 = 32400 := by norm_num
  refine ⟨hiff, by simp [outside_active, hs, he], by simp [outside_active, hs, he],
    ?_, ?_, ?_, ?_, ?_⟩
  · intro h h9 h20
    simp [outside_active, hs, he]
    omega
  · intro hout
    simp [schedStep, hout, hs]
  · unfold seconds_until_hour
    simp only [htgt]
    split <;> linarith
  · unfold seconds_until_hour
    simp only [htgt]
    split <;> linarith
  · unfold seconds_until_hour
    simp only [htgt]
    split
    · right
      ring_nf
    · left
      ring_nf

/-- Witness for C6: at hour 8 (08:00:00 wall clock, second-of-day 28800) the
scheduler is outside the window and the computed sleep is positive. -/
theorem c6_active_window_witness :
    (0 : ℚ) < seconds_until_hour 28800 9 :=
  (c6_active_window ⟨"acct1", 0, 9, 21, 19, 600, 1200⟩
    ⟨8, 28800, false, 0, 1, "now", [], [], fun _ => none, fun _ => none,
      none, ReloginOutcome.success, false⟩
    [] rfl rfl (by norm_num) (by norm_num)).2.2.2.2.2.1

/-- C8: inside the active window, an iteration is the fixed skip (no
heartbeat, no cycle, a fixed 30-second sleep) exactly when the coordination
lock file exists and its modification time is within 5 minutes (300 seconds)
of now; a lock 4 minutes old (240 s) is fresh and causes the skip, one 6
minutes old (360 s) is stale and lets the cycle run. -/
theorem c8_lock_skip (cfg : Config) (env : Env) (ls : List (String × String))
    (hin : outside_active cfg env.hour = false) :
    is_flowchat_active true 240 = true
    ∧ is_flowchat_active true 360 = false
    ∧ (schedStep cfg env ls =
        { heartbeats := [], sleepSec := some 30, saved := none, cycle := none,
          reloginAttempts := 0, sessionSaved := false, deviceApplied := none,
          exitCode := none }
       ↔ (env.lockThere = true ∧ env.lockAgeSec < 300))
    ∧ (env.lockAgeSec = 360 → env.exc = none →
        (schedStep cfg env ls).cycle =
          some (poll_cycle cfg env.nowIso env.fwd env.sendReply env.pending
            env.inbox ls)) := by
  have h240 : ((240 : ℚ) < 300) := by norm_num
  have h360 : ¬ ((360 : ℚ) < 300) := by norm_num
  refine ⟨by simp [is_flowchat_active, h240], by simp [is_flowchat_active, h360],
    ?_, ?_⟩
  · cases hl : is_flowchat_active env.lockThere env.lockAgeSec
    · have hrhs : ¬ (env.lockThere = true ∧ env.lockAgeSec < 300) := by
        intro hc
        rw [is_flowchat_active, hc.1, decide_eq_true hc.2] at hl
        simp at hl
      constructor
      · intro hEq
        cases hexc : env.exc with
        | none => simp [schedStep, hin, hl, hexc] at hEq
        | some e =>
          cases e with
          | loginRequired =>
            cases hr : env.relogin <;> simp [schedStep, hin, hl, hexc, hr] at hEq
          | challengeRequired d => simp [schedStep, hin, hl, hexc] at hEq
          | otherError d => simp [schedStep, hin, hl, hexc] at hEq
      · intro hc
        exact absurd hc hrhs
    · have hrhs : env.lockThere = true ∧ env.lockAgeSec < 300 := by
        rw [is_flowchat_active, Bool.and_eq_true, decide_eq_true_iff] at hl
        exact hl
      constructor
      · intro _
        exact hrhs
      · intro _
        simp [schedStep, hin, hl]
  · intro hage hexc
    have hl : is_flowchat_active env.lockThere env.lockAgeSec = false := by
      rw [is_flowchat_active, hage, decide_eq_false h360, Bool.and_false]
    simp [schedStep, hin, hl, hexc]

/-- Witness for C8: with a stale (6-minute-old) lock and a quiet environment
the cycle runs (a cycle result is produced). -/
theorem c8_lock_skip_witness :
    (schedStep ⟨"acct1", 0, 9, 21, 19, 600, 1200⟩
      ⟨10, 36000, true, 360, 1, "now", [], [], fun _ => none, fun _ => none,
        none, ReloginOutcome.success, false⟩
      []).cycle =
      some (poll_cycle ⟨"acct1", 0, 9, 21, 19, 600, 1200⟩ "now"
        (fun _ => none) (fun _ => none) [] [] []) :=
  (c8_lock_skip ⟨"acct1", 0, 9, 21, 19, 600, 1200⟩
    ⟨10, 36000, true, 360, 1, "now", [], [], fun _ => none, fun _ => none,
      none, ReloginOutcome.success, false⟩
    [] rfl).2.2.2 rfl rfl

lemma process_thread_spec (cfg : Config) (nowIso : String)
    (fwd : Payload → Option Nat) (st : CycleResult) (t : IgThread)
    (msgs : List Msg) :
    (process_thread cfg nowIso fwd st t msgs).found
        = st.found + (collect_new (alist_get st.lastSeen t.id) msgs).length
    ∧ (process_thread cfg nowIso fwd st t msgs).forwards
        = st.forwards ++ ((collect_new (alist_get st.lastSeen t.id) msgs).reverse.map
            (fun m => build_payload cfg nowIso t.id t.users m)).map
            (fun q => (q, fwd q))
    ∧ (process_thread cfg nowIso fwd st t msgs).sent = st.sent
    ∧ (process_thread cfg nowIso fwd st t msgs).confirms = st.confirms
    ∧ (∀ k, k ≠ t.id →
        alist_get (process_thread cfg nowIso fwd st t msgs).lastSeen k
          = alist_get st.lastSeen k)
    ∧ (collect_new (alist_get st.lastSeen t.id) msgs ≠ [] →
        alist_get (process_thread cfg nowIso fwd st t msgs).lastSeen t.id
          = msgs.head?.map Msg.id)
    ∧ (collect_new (alist_get st.lastSeen t.id) msgs = [] →
        (process_thread cfg nowIso fwd st t msgs).lastSeen = st.lastSeen) := by
  cases msgs with
  | nil => simp [process_thread, collect_new]
  | cons m0 rest =>
    cases hc : collect_new (alist_get st.lastSeen t.id) (m0 :: rest) with
    | nil => simp [process_thread, hc]
    | cons c cs =>
      refine ⟨by simp [process_thread, hc], by simp [process_thread, hc],
        by simp [process_thread, hc], by simp [process_thread, hc], ?_, ?_, ?_⟩
      · intro k hk
        simp [process_thread, hc, alist_get_set, Ne.symm hk]
      · intro _
        simp [process_thread, hc, alist_get_set]
      · intro h
        exact absurd h (by simp [hc])

lemma inbox_fold_lastSeen_other (cfg : Config) (nowIso : String)
    (fwd : Payload → Option Nat) (inbox : List (IgThread × List Msg))
    (st : CycleResult) (k : String)
    (hk : k ∉ inbox.map (fun p => p.1.id)) :
    alist_get ((inbox.foldl
        (fun s p => process_thread cfg nowIso fwd s p.1 p.2) st).lastSeen) k
      = alist_get st.lastSeen k := by
  induction inbox generalizing st with
  | nil => rfl
  | cons p rest ih =>
    simp only [List.map_cons, List.mem_cons, not_or] at hk
    rw [List.foldl_cons, ih _ hk.2,
      (process_thread_spec cfg nowIso fwd st p.1 p.2).2.2.2.2.1 k hk.1]

lemma inbox_fold_sent_confirms (cfg : Config) (nowIso : String)
    (fwd : Payload → Option Nat) (inbox : List (IgThread × List Msg))
    (st : CycleResult) :
    (inbox.foldl (fun s p => process_thread cfg nowIso fwd s p.1 p.2) st).sent
        = st.sent
    ∧ (inbox.foldl (fun s p => process_thread cfg nowIso fwd s p.1 p.2) st).confirms
        = st.confirms := by
  induction inbox generalizing st with
  | nil => exact ⟨rfl, rfl⟩
  | cons p rest ih =>
    have hs := process_thread_spec cfg nowIso fwd st p.1 p.2
    rw [List.foldl_cons]
    exact ⟨((ih _).1).trans hs.2.2.1, ((ih _).2).trans hs.2.2.2.1⟩

lemma inbox_fold_found (cfg : Config) (nowIso : String)
    (fwd : Payload → Option Nat) (inbox : List (IgThread × List Msg))
    (st : CycleResult)
    (hnd : (inbox.map (fun p => p.1.id)).Nodup) :
    (inbox.foldl (fun s p => process_thread cfg nowIso fwd s p.1 p.2) st).found
      = st.found + (inbox.map
          (fun p => (collect_new (alist_get st.lastSeen p.1.id) p.2).length)).sum := by
  induction inbox generalizing st with
  | nil => simp
  | cons p rest ih =>
    simp only [List.map_cons, List.nodup_cons] at hnd
    have hs := process_thread_spec cfg nowIso fwd st p.1 p.2
    have hkeys : ∀ q ∈ rest,
        alist_get (process_thread cfg nowIso fwd st p.1 p.2).lastSeen q.1.id
          = alist_get st.lastSeen q.1.id := by
      intro q hq
      refine hs.2.2.2.2.1 q.1.id ?_
      intro hEq
      exact hnd.1 (hEq ▸ List.mem_map.mpr ⟨q, hq, rfl⟩)
    rw [List.foldl_cons, ih _ hnd.2, hs.1,
      List.map_congr_left (fun q hq => by rw [hkeys q hq])]
    simp only [List.map_cons, List.sum_cons]
    omega

lemma inbox_fold_forwards (cfg : Config) (nowIso : String)
    (fwd : Payload → Option Nat) (inbox : List (IgThread × List Msg))
    (st : CycleResult)
    (hnd : (inbox.map (fun p => p.1.id)).Nodup) :
    (inbox.foldl (fun s p => process_thread cfg nowIso fwd s p.1 p.2) st).forwards
      = st.forwards ++ inbox.flatMap
          (fun p => ((collect_new (alist_get st.lastSeen p.1.id) p.2).reverse.map
            (fun m => build_payload cfg nowIso p.1.id p.1.users m)).map
            (fun q => (q, fwd q))) := by
  induction inbox generalizing st with
  | nil => simp
  | cons p rest ih =>
    simp only [List.map_cons, List.nodup_cons] at hnd
    have hs := process_thread_spec cfg nowIso fwd st p.1 p.2
    have hkeys : ∀ q ∈ rest,
        alist_get (process_thread cfg nowIso fwd st p.1 p.2).lastSeen q.1.id
          = alist_get st.lastSeen q.1.id := by
      intro q hq
      refine hs.2.2.2.2.1 q.1.id ?_
      intro hEq
      exact hnd.1 (hEq ▸ List.mem_map.mpr ⟨q, hq, rfl⟩)
    rw [List.foldl_cons, ih _ hnd.2, hs.2.1,
      List.flatMap_congr (fun q hq => by rw [hkeys q hq])]
    simp [List.append_assoc]

lemma inbox_fold_watermark (cfg : Config) (nowIso : String)
    (fwd : Payload → Option Nat) (inbox : List (IgThread × List Msg))
    (st : CycleResult) (t : IgThread) (msgs : List Msg)
    (hnd : (inbox.map (fun p => p.1.id)).Nodup)
    (hmem : (t, msgs) ∈ inbox) :
    (collect_new (alist_get st.lastSeen t.id) msgs ≠ [] →
      alist_get ((inbox.foldl
          (fun s p => process_thread cfg nowIso fwd s p.1 p.2) st).lastSeen) t.id
        = msgs.head?.map Msg.id)
    ∧ (collect_new (alist_get st.lastSeen t.id) msgs = [] →
      alist_get ((inbox.foldl
          (fun s p => process_thread cfg nowIso fwd s p.1 p.2) st).lastSeen) t.id
        = alist_get st.lastSeen t.id) := by
  induction inbox generalizing st with
  | nil => cases hmem
  | cons p rest ih =>
    simp only [List.map_cons, List.nodup_cons] at hnd
    rcases List.mem_cons.mp hmem with heq | hmem'
    · have hpt : p = (t, msgs) := heq.symm
      subst hpt
      have hs := process_thread_spec cfg nowIso fwd st t msgs
      have hother : alist_get ((rest.foldl
          (fun s p => process_thread cfg nowIso fwd s p.1 p.2)
          (process_thread cfg nowIso fwd st t msgs)).lastSeen) t.id
          = alist_get (process_thread cfg nowIso fwd st t msgs).lastSeen t.id :=
        inbox_fold_lastSeen_other cfg nowIso fwd rest _ t.id hnd.1
      constructor
      · intro htouch
        rw [List.foldl_cons, hother, hs.2.2.2.2.2.1 htouch]
      · intro hun
        rw [List.foldl_cons, hother, hs.2.2.2.2.2.2 hun]
    · have htid : t.id ∈ rest.map (fun q => q.1.id) :=
        List.mem_map.mpr ⟨(t, msgs), hmem', rfl⟩
      have hpt : t.id ≠ p.1.id := by
        intro hEq
        exact hnd.1 (hEq ▸ htid)
      have hpre : alist_get (process_thread cfg nowIso fwd st p.1 p.2).lastSeen t.id
          = alist_get st.lastSeen t.id :=
        (process_thread_spec cfg nowIso fwd st p.1 p.2).2.2.2.2.1 t.id hpt
      have hih := ih (process_thread cfg nowIso fwd st p.1 p.2) hnd.2 hmem'
      rw [hpre] at hih
      rw [List.foldl_cons]
      exact hih

lemma process_reply_preserve (sendReply : Pending → Option (Option String))
    (st : CycleResult) (item : Pending) :
    (process_reply sendReply st item).found = st.found
    ∧ (process_reply sendReply st item).forwards = st.forwards
    ∧ (process_reply sendReply st item).lastSeen = st.lastSeen := by
  cases h : sendReply item <;> simp [process_reply, h]

lemma replies_fold_preserve (sendReply : Pending → Option (Option String))
    (pending : List Pending) (st : CycleResult) :
    (pending.foldl (process_reply sendReply) st).found = st.found
    ∧ (pending.foldl (process_reply sendReply) st).forwards = st.forwards
    ∧ (pending.foldl (process_reply sendReply) st).lastSeen = st.lastSeen := by
  induction pending generalizing st with
  | nil => exact ⟨rfl, rfl, rfl⟩
  | cons i rest ih =>
    have hp := process_reply_preserve sendReply st i
    rw [List.foldl_cons]
    exact ⟨((ih _).1).trans hp.1, ((ih _).2.1).trans hp.2.1,
      ((ih _).2.2).trans hp.2.2⟩

lemma replies_fold_sent_confirms (sendReply : Pending → Option (Option String))
    (pending : List Pending) (st : CycleResult) :
    (pending.foldl (process_reply sendReply) st).sent
        = st.sent + (pending.filter (fun i => (sendReply i).isSome)).length
    ∧ (pending.foldl (process_reply sendReply) st).confirms
        = st.confirms ++ pending.filterMap
            (fun i => (sendReply i).map (fun rid => (i.id, ig_id_of rid))) := by
  induction pending generalizing st with
  | nil => simp
  | cons i rest ih =>
    rw [List.foldl_cons]
    cases h : sendReply i with
    | none =>
      have hstep : process_reply sendReply st i = st := by simp [process_reply, h]
      rw [hstep]
      constructor
      · rw [(ih st).1]
        simp [List.filter_cons, h]
      · rw [(ih st).2]
        simp [List.filterMap_cons, h]
    | some rid =>
      have hstep : process_reply sendReply st i
          = { st with sent := st.sent + 1,
                      confirms := st.confirms ++ [(i.id, ig_id_of rid)] } := by
        simp [process_reply, h]
      rw [hstep]
      constructor
      · rw [(ih _).1]
        simp only [List.filter_cons, h, Option.isSome_some, if_pos, List.length_cons]
        omega
      · rw [(ih _).2]
        simp [List.filterMap_cons, h]

lemma poll_cycle_eq (cfg : Config) (nowIso : String) (fwd : Payload → Option Nat)
    (sendReply : Pending → Option (Option String)) (pending : List Pending)
    (inbox : List (IgThread × List Msg)) (ls : List (String × String)) :
    poll_cycle cfg nowIso fwd sendReply pending inbox ls
      = pending.foldl (process_reply sendReply)
          (inbox.foldl (fun s p => process_thread cfg nowIso fwd s p.1 p.2)
            ⟨0, 0, ls, [], []⟩) := rfl

/-- Sample message for the end-to-end scenario of §8 of the spec. -/
def exMsg (n : String) : Msg :=
  ⟨n, "u1", some ("hello " ++ n), none, some "text", none⟩

/-- Sample thread `T1` for the end-to-end scenario. -/
def exThread : IgThread := ⟨"T1", [⟨"u1", some "alice", some "Alice A"⟩]⟩

/-- Sample configuration (9–21 active window, wind-down at 19). -/
def exCfg : Config := ⟨"acct1", 0, 9, 21, 19, 600, 1200⟩

/-- First scenario cycle: watermark unset, fetch returns `[m3, m2, m1]`. -/
def exCycle1 : CycleResult :=
  poll_cycle exCfg "N" (fun _ => none) (fun _ => none) []
    [(exThread, [exMsg "m3", exMsg "m2", exMsg "m1"])] []

/-- Second scenario cycle: fetch returns `[m5, m4, m3]` with the watermark
left by the first cycle. -/
def exCycle2 : CycleResult :=
  poll_cycle exCfg "N" (fun _ => none) (fun _ => none) []
    [(exThread, [exMsg "m5", exMsg "m4", exMsg "m3"])] exCycle1.lastSeen

/-- C1: a poll cycle forwards, per thread, exactly the fetched messages
strictly newer than the stored watermark — the walk of the newest-first list
up to (excluding) the first id matching the watermark — delivered oldest-first
(the collected set reversed); with an unset watermark the whole window is
forwarded, and a watermark absent from the window forwards the whole window.
Concretely: a first cycle on `[m3, m2, m1]` with no watermark forwards
`m1, m2, m3` and sets watermark `m3`; a second on `[m5, m4, m3]` forwards
`m4, m5` and sets watermark `m5`. -/
theorem c1_dedup_ordering (cfg : Config) (nowIso : String)
    (fwd : Payload → Option Nat) (sendReply : Pending → Option (Option String))
    (pending : List Pending) (ls : List (String × String))
    (inbox : List (IgThread × List Msg))
    (hnd : (inbox.map (fun p => p.1.id)).Nodup) :
    (poll_cycle cfg nowIso fwd sendReply pending inbox ls).forwards
      = inbox.flatMap
          (fun p => ((collect_new (alist_get ls p.1.id) p.2).reverse.map
            (fun m => build_payload cfg nowIso p.1.id p.1.users m)).map
            (fun q => (q, fwd q)))
    ∧ (∀ msgs : List Msg, collect_new none msgs = msgs)
    ∧ (∀ (w : String) (msgs : List Msg), w ∉ msgs.map Msg.id →
        collect_new (some w) msgs = msgs)
    ∧ (∀ (l1 : List Msg) (m : Msg) (l2 : List Msg) (w : String),
        m.id = w → w ∉ l1.map Msg.id → collect_new (some w) (l1 ++ m :: l2) = l1)
    ∧ exCycle1.forwards.map (fun q => q.1.message_id) = ["m1", "m2", "m3"]
    ∧ alist_get exCycle1.lastSeen "T1" = some "m3"
    ∧ exCycle2.forwards.map (fun q => q.1.message_id) = ["m4", "m5"]
    ∧ alist_get exCycle2.lastSeen "T1" = some "m5" := by
  refine ⟨?_, collect_new_none, fun w msgs h => collect_new_not_mem w msgs h,
    fun l1 m l2 w hw hn => collect_new_split l1 m l2 w hw hn,
    by decide, by decide, by decide, by decide⟩
  rw [poll_cycle_eq, (replies_fold_preserve sendReply pending _).2.1,
    inbox_fold_forwards cfg nowIso fwd inbox ⟨0, 0, ls, [], []⟩ hnd]
  simp

/-- Witness for C1: the forward stream of the first scenario cycle is the
per-thread strictly-newer blocks, oldest-first. -/
theorem c1_dedup_ordering_witness :
    (poll_cycle exCfg "N" (fun _ => none) (fun _ => none) []
        [(exThread, [exMsg "m3", exMsg "m2", exMsg "m1"])] []).forwards
      = [(exThread, [exMsg "m3", exMsg "m2", exMsg "m1"])].flatMap
          (fun p => ((collect_new (alist_get [] p.1.id) p.2).reverse.map
            (fun m => build_payload exCfg "N" p.1.id p.1.users m)).map
            (fun q => (q, (fun _ => (none : Option Nat)) q))) :=
  (c1_dedup_ordering exCfg "N" (fun _ => none) (fun _ => none) [] []
    [(exThread, [exMsg "m3", exMsg "m2", exMsg "m1"])] (by decide)).1

/-- C2: after a cycle in which a thread's collected new set is non-empty, that
thread's stored watermark equals the newest fetched message id for the thread
(the head of the newest-first window), for every forwarding outcome; an
already-set watermark found in the window sits at a strictly later (older)
position than the new one (index 0), so the watermark only advances; a thread
whose collected set is empty keeps its watermark unchanged. -/
theorem c2_watermark_advancement (cfg : Config) (nowIso : String)
    (sendReply : Pending → Option (Option String)) (pending : List Pending)
    (ls : List (String × String)) (inbox : List (IgThread × List Msg))
    (t : IgThread) (msgs : List Msg)
    (hnd : (inbox.map (fun p => p.1.id)).Nodup)
    (hmem : (t, msgs) ∈ inbox)
    (htouch : collect_new (alist_get ls t.id) msgs ≠ []) :
    (∀ fwd, alist_get
        (poll_cycle cfg nowIso fwd sendReply pending inbox ls).lastSeen t.id
        = msgs.head?.map Msg.id)
    ∧ (∀ w, alist_get ls t.id = some w → 0 < (msgs.map Msg.id).indexOf w)
    ∧ (∀ fwd t2 msgs2, (t2, msgs2) ∈ inbox →
        collect_new (alist_get ls t2.id) msgs2 = [] →
        alist_get
          (poll_cycle cfg nowIso fwd sendReply pending inbox ls).lastSeen t2.id
          = alist_get ls t2.id) := by
  refine ⟨?_, ?_, ?_⟩
  · intro fwd
    rw [poll_cycle_eq, (replies_fold_preserve sendReply pending _).2.2]
    exact (inbox_fold_watermark cfg nowIso fwd inbox ⟨0, 0, ls, [], []⟩ t msgs
      hnd hmem).1 htouch
  · intro w hw
    cases msgs with
    | nil => exact absurd rfl htouch
    | cons m0 rest =>
      have hne : m0.id ≠ w := by
        intro hEq
        apply htouch
        rw [hw]
        simp [collect_new, hEq]
      simp only [List.map_cons]
      rw [List.indexOf_cons_ne _ hne]
      exact Nat.succ_pos _
  · intro fwd t2 msgs2 hmem2 hun
    rw [poll_cycle_eq, (replies_fold_preserve sendReply pending _).2.2]
    exact (inbox_fold_watermark cfg nowIso fwd inbox ⟨0, 0, ls, [], []⟩ t2 msgs2
      hnd hmem2).2 hun

/-- Witness for C2: the second scenario cycle advances `T1`'s watermark from
`m3` to `m5`, the newest fetched id. -/
theorem c2_watermark_advancement_witness :
    alist_get (poll_cycle exCfg "N" (fun _ => none) (fun _ => none) []
        [(exThread, [exMsg "m5", exMsg "m4", exMsg "m3"])]
        [("T1", "m3")]).lastSeen exThread.id
      = ([exMsg "m5", exMsg "m4", exMsg "m3"].head?).map Msg.id :=
  (c2_watermark_advancement exCfg "N" (fun _ => none) [] [("T1", "m3")]
    [(exThread, [exMsg "m5", exMsg "m4", exMsg "m3"])] exThread
    [exMsg "m5", exMsg "m4", exMsg "m3"] (by decide) (by decide)
    (by decide)).1 (fun _ => none)

/-- C9: over one cycle the sent counter equals the number of pending replies
whose send succeeded, and the posted delivery confirmations are exactly, in
order, one `(pending reply id, remote-assigned message id)` pair per
successful send — a failed send (exception from the remote client) produces no
confirmation and does not prevent the later replies from being processed,
while the inbound half of the cycle is unaffected by reply outcomes. -/
theorem c9_pending_reply_outcomes (cfg : Config) (nowIso : String)
    (fwd : Payload → Option Nat) (sendReply : Pending → Option (Option String))
    (pending : List Pending) (inbox : List (IgThread × List Msg))
    (ls : List (String × String)) :
    (poll_cycle cfg nowIso fwd sendReply pending inbox ls).sent
        = (pending.filter (fun i => (sendReply i).isSome)).length
    ∧ (poll_cycle cfg nowIso fwd sendReply pending inbox ls).confirms
        = pending.filterMap
            (fun i => (sendReply i).map (fun rid => (i.id, ig_id_of rid)))
    ∧ (∀ sendReply2,
        (poll_cycle cfg nowIso fwd sendReply pending inbox ls).found
          = (poll_cycle cfg nowIso fwd sendReply2 pending inbox ls).found
        ∧ (poll_cycle cfg nowIso fwd sendReply pending inbox ls).forwards
          = (poll_cycle cfg nowIso fwd sendReply2 pending inbox ls).forwards
        ∧ (poll_cycle cfg nowIso fwd sendReply pending inbox ls).lastSeen
          = (poll_cycle cfg nowIso fwd sendReply2 pending inbox ls).lastSeen) := by
  refine ⟨?_, ?_, ?_⟩
  · rw [poll_cycle_eq, (replies_fold_sent_confirms sendReply pending _).1,
      (inbox_fold_sent_confirms cfg nowIso fwd inbox _).1]
    simp
  · rw [poll_cycle_eq, (replies_fold_sent_confirms sendReply pending _).2,
      (inbox_fold_sent_confirms cfg nowIso fwd inbox _).2]
    simp
  · intro sendReply2
    refine ⟨?_, ?_, ?_⟩ <;>
      rw [poll_cycle_eq, poll_cycle_eq] <;>
      [ rw [(replies_fold_preserve sendReply pending _).1,
          (replies_fold_preserve sendReply2 pending _).1];
        rw [(replies_fold_preserve sendReply pending _).2.1,
          (replies_fold_preserve sendReply2 pending _).2.1];
        rw [(replies_fold_preserve sendReply pending _).2.2,
          (replies_fold_preserve sendReply2 pending _).2.2] ]

/-- C10: the `messages_found` count a cycle returns — and the heartbeat
reports — is the total number of newly collected messages across all threads,
for every forwarding outcome (a message whose forward failed is still
counted). -/
theorem c10_found_count (cfg : Config) (nowIso : String)
    (sendReply : Pending → Option (Option String)) (pending : List Pending)
    (ls : List (String × String)) (inbox : List (IgThread × List Msg))
    (hnd : (inbox.map (fun p => p.1.id)).Nodup) :
    (∀ fwd, (poll_cycle cfg nowIso fwd sendReply pending inbox ls).found
        = (inbox.map
            (fun p => (collect_new (alist_get ls p.1.id) p.2).length)).sum)
    ∧ (∀ fwd fwd2,
        (poll_cycle cfg nowIso fwd sendReply pending inbox ls).found
          = (poll_cycle cfg nowIso fwd2 sendReply pending inbox ls).found)
    ∧ (∀ env : Env, outside_active cfg env.hour = false →
        is_flowchat_active env.lockThere env.lockAgeSec = false →
        env.exc = none →
        (schedStep cfg env ls).heartbeats =
          [⟨"ok",
            (poll_cycle cfg env.nowIso env.fwd env.sendReply env.pending
              env.inbox ls).found,
            (poll_cycle cfg env.nowIso env.fwd env.sendReply env.pending
              env.inbox ls).sent, none⟩]) := by
  have key : ∀ fwd : Payload → Option Nat,
      (poll_cycle cfg nowIso fwd sendReply pending inbox ls).found
        = (inbox.map
            (fun p => (collect_new (alist_get ls p.1.id) p.2).length)).sum := by
    intro fwd
    rw [poll_cycle_eq, (replies_fold_preserve sendReply pending _).1,
      inbox_fold_found cfg nowIso fwd inbox ⟨0, 0, ls, [], []⟩ hnd]
    simp
  refine ⟨key, fun fwd fwd2 => (key fwd).trans (key fwd2).symm, ?_⟩
  intro env hin hlock hexc
  simp [schedStep, hin, hlock, hexc]

/-- Witness for C10: the first scenario cycle counts 3 messages found. -/
theorem c10_found_count_witness :
    (poll_cycle exCfg "N" (fun _ => none) (fun _ => none) []
        [(exThread, [exMsg "m3", exMsg "m2", exMsg "m1"])] []).found
      = ([(exThread, [exMsg "m3", exMsg "m2", exMsg "m1"])].map
          (fun p => (collect_new (alist_get [] p.1.id) p.2).length)).sum :=
  (c10_found_count exCfg "N" (fun _ => none) [] []
    [(exThread, [exMsg "m3", exMsg "m2", exMsg "m1"])] (by decide)).1
    (fun _ => none)

end DMAgent
